import Mathlib

/-!
# CLATCH test harness (`main.cpp`)

A shallow embedding of the benchmark harness `main()` of `main.cpp` and the
properties of its keypoint filter, keypoint marshaller, buffer sizing,
benchmark loops, checksum and exit paths.

Conventions of the embedding.

* A finite single-precision value is modelled by the rational number it
  denotes. Copies and comparisons are exact on these values; arithmetic
  rounds its exact result with `roundF32`.
* `size_t` values are naturals reduced modulo `2 ^ 64`, `int` values are
  integers.
* The calls that `main` issues to its collaborators (the detector, the CUDA
  runtime, the `CLATCH` kernel, the clock, the output streams) are recorded,
  in program order, as a list of `Event`s. What the collaborators hand back
  (the decoded image, the detected keypoints, the clock readings, the words
  read back from the device) is the `Env` the run is given.
-/

namespace Clatch

/-! ## Data model -/

namespace cv

/-- The `cv::Point2f` of a detected keypoint. -/
structure Point2f where
  x : ℚ
  y : ℚ
  deriving DecidableEq

/-- The detector-native record `cv::KeyPoint`. -/
structure KeyPoint where
  pt : Point2f
  size : ℚ
  angle : ℚ
  response : ℚ
  octave : ℤ
  class_id : ℤ
  deriving DecidableEq

/-- The part of `cv::Mat` that `main` reads: the dimensions and the pixel
pointer `data`, which is null (`none`) when `cv::imread` could not load the
image. -/
structure Mat where
  rows : ℤ
  cols : ℤ
  data : Option (List ℕ)

end cv

/-- Modelled from the spec: the kernel-native `KeyPoint` record of `CLATCH.h`
(position, scale, angle in radians), whose constructor stores its four
arguments in this order. -/
structure KeyPoint where
  x : ℚ
  y : ℚ
  scale : ℚ
  angle : ℚ
  deriving DecidableEq

/-! ## Single-precision rounding -/

/-- Round to the nearest integer, ties to the even one. -/
def roundTiesEven (q : ℚ) : ℤ :=
  if q - ⌊q⌋ < 1 / 2 then ⌊q⌋
  else if 1 / 2 < q - ⌊q⌋ then ⌊q⌋ + 1
  else if ⌊q⌋ % 2 = 0 then ⌊q⌋ else ⌊q⌋ + 1

/-- The exponent of the binary32 format that holds `q`: for a normal number
the `e` with `2 ^ e ≤ |q| < 2 ^ (e + 1)`; normal numbers have exponents from
`-126` up, smaller magnitudes are subnormal and share the exponent `-126`. -/
def f32Exponent (q : ℚ) : ℤ := max (Int.log 2 |q|) (-126)

/-- The spacing of binary32 values around `q` (24-bit significand). -/
def f32Ulp (q : ℚ) : ℚ := (2 : ℚ) ^ (f32Exponent q - 23)

/-- IEEE 754 binary32 rounding (round to nearest, ties to even) of an exact
result, for results below the overflow threshold. -/
def roundF32 (q : ℚ) : ℚ :=
  if q = 0 then 0 else (roundTiesEven (q / f32Ulp q) : ℚ) * f32Ulp q

/-! ## Keypoint filter (`main.cpp`, line 81) -/

/-- The lambda handed to `std::remove_if`: true for a keypoint to remove. The
`int` values `image.cols - 36` and `image.rows - 36` are compared as the
single-precision values they convert to, which are the integers themselves
for every image dimension up to `2 ^ 24`. -/
def borderPred (image : cv.Mat) (kp : cv.KeyPoint) : Bool :=
  decide (kp.pt.x ≤ 36) || decide (kp.pt.y ≤ 36) ||
    decide (kp.pt.x ≥ ((image.cols - 36 : ℤ) : ℚ)) ||
    decide (kp.pt.y ≥ ((image.rows - 36 : ℤ) : ℚ))

/-- The elements `std::remove_if` moves to the front: those for which the
predicate is false, in the order in which the scan meets them. -/
def removeIfKept {α : Type} (pred : α → Bool) : List α → List α
  | [] => []
  | a :: rest => if pred a then removeIfKept pred rest else a :: removeIfKept pred rest

/-- `std::remove_if(v.begin(), v.end(), pred)`: the rearranged sequence (the
kept elements, then the untouched tail) and the position of the new logical
end. -/
def remove_if {α : Type} (pred : α → Bool) (v : List α) : List α × ℕ :=
  (removeIfKept pred v ++ v.drop (removeIfKept pred v).length, (removeIfKept pred v).length)

/-- `v.erase(first, last)` on positions. -/
def erase {α : Type} (v : List α) (first last : ℕ) : List α :=
  v.take first ++ v.drop last

/-- Line 81: `keypoints.erase(std::remove_if(keypoints.begin(),
keypoints.end(), pred), keypoints.end())`. -/
def filterKeypoints (image : cv.Mat) (keypoints : List cv.KeyPoint) : List cv.KeyPoint :=
  erase (remove_if (borderPred image) keypoints).1 (remove_if (borderPred image) keypoints).2
    (remove_if (borderPred image) keypoints).1.length

/-- The spec's survival condition: strictly inside the 36-pixel margin. -/
def insideMargin (width height : ℤ) (kp : cv.KeyPoint) : Prop :=
  36 < kp.pt.x ∧ kp.pt.x < ((width - 36 : ℤ) : ℚ) ∧
    36 < kp.pt.y ∧ kp.pt.y < ((height - 36 : ℤ) : ℚ)

instance (width height : ℤ) (kp : cv.KeyPoint) : Decidable (insideMargin width height kp) := by
  unfold insideMargin
  infer_instance

/-! ## Keypoint marshaller (`main.cpp`, lines 88-89) -/

/-- The value of the literal `3.14159265f`. -/
def PI_F : ℚ := roundF32 (314159265 / 100000000)

/-- The expression `kp.angle * 3.14159265f / 180.0f`, evaluated left to right
in single precision. -/
def toRadians (angle : ℚ) : ℚ := roundF32 (roundF32 (angle * PI_F) / 180)

/-- The loop `for (const auto& kp : keypoints) kps.emplace_back(...)`; `kps` is
the vector built so far. -/
def marshalLoop : List cv.KeyPoint → List KeyPoint → List KeyPoint
  | [], kps => kps
  | kp :: rest, kps =>
      marshalLoop rest (kps ++ [KeyPoint.mk kp.pt.x kp.pt.y kp.size (toRadians kp.angle)])

/-- The vector `kps` after the loop of line 89. -/
def marshal (keypoints : List cv.KeyPoint) : List KeyPoint := marshalLoop keypoints []

/-! ## Sizes and casts (`main.cpp`, lines 97, 101, 145, 154, 155) -/

/-- The exit status `EXIT_FAILURE`. -/
def EXIT_FAILURE : ℤ := 1

/-- The exit status of a `main` that runs off its end. -/
def EXIT_SUCCESS : ℤ := 0

/-- The constant `warmups` of line 60. -/
def warmups : ℕ := 100

/-- The constant `runs` of line 61. -/
def runs : ℕ := 500

/-- The constant `numkps` of line 62. -/
def numkps : ℕ := 5000

/-- Modelled from the spec: `sizeof(KeyPoint)` for the record of `CLATCH.h`,
four single-precision fields. -/
def sizeofKeyPoint : ℕ := 16

/-- The `size_t` expression `64 * kps.size()` of lines 97 and 155. -/
def descBytes (n : ℕ) : ℕ := (64 * n) % 2 ^ 64

/-- The `size_t` expression `kps.size() * sizeof(KeyPoint)` of lines 101-102. -/
def kpsBytes (n : ℕ) : ℕ := (n * sizeofKeyPoint) % 2 ^ 64

/-- The `size_t` expression `8 * kps.size()` of lines 154 and 160. -/
def hostWords (n : ℕ) : ℕ := (8 * n) % 2 ^ 64

/-- The conversion `static_cast<int>(kps.size())`. -/
def static_cast_int (n : ℕ) : ℤ := (((n + 2 ^ 31) % 2 ^ 32 : ℕ) : ℤ) - 2 ^ 31

/-! ## Checksum (`main.cpp`, lines 159-160) -/

/-- The bit pattern of a `long long`, which is what `std::hex` prints. -/
def toU64 (z : ℤ) : ℕ := (z % 2 ^ 64).toNat

/-- The `long long` with a given 64-bit pattern. -/
def toI64 (n : ℕ) : ℤ := if n % 2 ^ 64 < 2 ^ 63 then (n % 2 ^ 64 : ℕ) else ((n % 2 ^ 64 : ℕ) : ℤ) - 2 ^ 64

/-- The statement `total += h_GPUdesc[i]`: the sum of a `long long` and a
`uint64_t` is formed in `uint64_t` and stored back into the `long long`. -/
def accumulate (total : ℤ) (word : ℕ) : ℤ := toI64 ((toU64 total + word % 2 ^ 64) % 2 ^ 64)

/-- Lines 159-160: `long long total = 0; for (size_t i = 0; i < bound; ++i)
total += h_GPUdesc[i];`. -/
def checksum (h_GPUdesc : List ℕ) (bound : ℕ) : ℤ :=
  (List.range bound).foldl (fun total i => accumulate total (h_GPUdesc.getD i 0)) 0

/-! ## The run (`main.cpp`, lines 58-162) -/

/-- The accelerator-resident objects `main` creates, each named by the
variable that holds its handle. -/
inductive Resource
  | d_desc
  | d_kps
  | d_triplets
  | d_trip_arr
  | d_trip_tex
  | d_img_arr
  | d_img_tex
  deriving DecidableEq

/-- The calls `main` can issue to its collaborators. The last three are the
CUDA release calls; `main.cpp` contains none of them. -/
inductive Event
  /-- Line 70: the error message on `std::cerr`. -/
  | cerrFailedToOpen
  /-- Line 77: `Detecting...`. -/
  | coutDetecting
  /-- Lines 78-80: `cv::ORB::create(numkps, ...)` and `orb->detect`. -/
  | detect (nfeatures : ℕ)
  | cudaDeviceSetCacheConfig
  | cudaDeviceSetSharedMemConfig
  | cudaMalloc (r : Resource) (bytes : ℕ)
  /-- A `cudaMemcpy` with `cudaMemcpyHostToDevice`. -/
  | cudaMemcpyHostToDevice (dst : Resource) (bytes : ℕ)
  | cudaMallocArray (r : Resource) (width height : ℤ)
  | cudaMemcpyToArray (dst : Resource) (bytes : ℤ)
  | cudaCreateTextureObject (tex array : Resource)
  /-- Line 144: `Warming up...`. -/
  | coutWarmingUp
  /-- Line 146: `Testing...`. -/
  | coutTesting
  /-- One call of the descriptor kernel, with its five arguments. -/
  | CLATCH (img_tex trip_tex kps : Resource) (count : ℤ) (desc : Resource)
  /-- One reading of `high_resolution_clock::now()`. -/
  | now
  /-- Line 152: the quotient `elapsed * 1e-3 / divisor` is evaluated in double
  precision and printed together with the keypoint count. -/
  | coutTiming (elapsed : ℤ) (divisor : ℕ) (count : ℕ)
  /-- Line 154: `new uint64_t[words]`. -/
  | newArray (words : ℕ)
  /-- A `cudaMemcpy` with `cudaMemcpyDeviceToHost`. -/
  | cudaMemcpyDeviceToHost (src : Resource) (bytes : ℕ)
  | cudaGetLastError
  /-- Line 161: the checksum on `std::cout`. -/
  | coutChecksum (total : ℤ)
  | cudaFree (r : Resource)
  | cudaFreeArray (r : Resource)
  | cudaDestroyTextureObject (r : Resource)
  deriving DecidableEq

/-- What the collaborators hand back to one run. -/
structure Env where
  /-- The result of `cv::imread`. -/
  image : cv.Mat
  /-- The keypoints `orb->detect` stores. -/
  detected : List cv.KeyPoint
  /-- The clock reading of line 147. -/
  start : ℤ
  /-- The clock reading of line 149. -/
  stop : ℤ
  /-- Word `i` of the device buffer `d_desc` at the time of the readback. -/
  deviceWord : ℕ → ℕ

/-- The observable result of one run: the exit status and the calls issued,
in program order. -/
structure Outcome where
  exit : ℤ
  trace : List Event

/-- The loop `for (int i = 0; i < bound; ++i) CLATCH(...)`, by the number of
iterations left. -/
def kernelLoop (call : Event) : ℕ → List Event
  | 0 => []
  | k + 1 => call :: kernelLoop call k

/-- The call `CLATCH(d_img_tex, d_trip_tex, d_kps, static_cast<int>(kps.size()),
d_desc)` of lines 145 and 148. -/
def kernelCall (n : ℕ) : Event :=
  Event.CLATCH Resource.d_img_tex Resource.d_trip_tex Resource.d_kps (static_cast_int n)
    Resource.d_desc

/-- Lines 77-142: detection and resource provisioning, for `n` surviving
keypoints. -/
def provision (image : cv.Mat) (n : ℕ) : List Event :=
  [ Event.coutDetecting,
    Event.detect numkps,
    Event.cudaDeviceSetCacheConfig,
    Event.cudaDeviceSetSharedMemConfig,
    Event.cudaMalloc Resource.d_desc (descBytes n),
    Event.cudaMalloc Resource.d_kps (kpsBytes n),
    Event.cudaMemcpyHostToDevice Resource.d_kps (kpsBytes n),
    Event.cudaMalloc Resource.d_triplets (2048 * 2),
    Event.cudaMemcpyHostToDevice Resource.d_triplets (2048 * 2),
    Event.cudaMallocArray Resource.d_trip_arr 512 0,
    Event.cudaMemcpyToArray Resource.d_trip_arr (2048 * 2),
    Event.cudaCreateTextureObject Resource.d_trip_tex Resource.d_trip_arr,
    Event.cudaMallocArray Resource.d_img_arr image.cols image.rows,
    Event.cudaMemcpyToArray Resource.d_img_arr (image.rows * image.cols),
    Event.cudaCreateTextureObject Resource.d_img_tex Resource.d_img_arr ]

/-- Lines 152-161: the timing report, the readback and the checksum. -/
def report (runs : ℕ) (env : Env) (n : ℕ) : List Event :=
  [ Event.coutTiming (env.stop - env.start) (runs * n) n,
    Event.newArray (hostWords n),
    Event.cudaMemcpyDeviceToHost Resource.d_desc (descBytes n),
    Event.cudaGetLastError,
    Event.coutChecksum
      (checksum ((List.range (hostWords n)).map env.deviceWord) (hostWords n)) ]

/-- The value of `kps.size()` after line 89. -/
def kpsSize (env : Env) : ℕ := (marshal (filterKeypoints env.image env.detected)).length

/-- The function `main`, for given values of the constants `warmups` and
`runs`. -/
def mainRun (warmups runs : ℕ) (env : Env) : Outcome :=
  match env.image.data with
  | none => { exit := EXIT_FAILURE, trace := [Event.cerrFailedToOpen] }
  | some _ =>
    { exit := EXIT_SUCCESS,
      trace :=
        provision env.image (kpsSize env)
          ++ Event.coutWarmingUp :: kernelLoop (kernelCall (kpsSize env)) warmups
          ++ Event.coutTesting :: Event.now :: kernelLoop (kernelCall (kpsSize env)) runs
          ++ Event.now :: report runs env (kpsSize env) }

/-- The function `main` as compiled: `warmups = 100`, `runs = 500`. -/
def main (env : Env) : Outcome := mainRun warmups runs env

/-! ## Observations on a trace -/

/-- Is the event a call of the descriptor kernel? -/
def isKernel : Event → Bool
  | Event.CLATCH _ _ _ _ _ => true
  | _ => false

/-- Is the event a clock reading? -/
def isNow : Event → Bool
  | Event.now => true
  | _ => false

/-- Is the event a call into the CUDA runtime or the kernel? -/
def isAccelerator : Event → Bool
  | Event.cerrFailedToOpen => false
  | Event.coutDetecting => false
  | Event.detect _ => false
  | Event.coutWarmingUp => false
  | Event.coutTesting => false
  | Event.now => false
  | Event.coutTiming _ _ _ => false
  | Event.newArray _ => false
  | Event.coutChecksum _ => false
  | _ => true

/-- Is the event the detector call? -/
def isDetect : Event → Bool
  | Event.detect _ => true
  | _ => false

/-- The number of kernel calls in a stretch of the trace. -/
def kernelCalls (t : List Event) : ℕ := (t.filter isKernel).length

/-- The events before the first clock reading. -/
def beforeNow (t : List Event) : List Event := t.takeWhile (fun e => !isNow e)

/-- The events after the first clock reading. -/
def afterNow (t : List Event) : List Event := (t.dropWhile (fun e => !isNow e)).drop 1

/-- The events between the start and the end timestamp. -/
def timed (t : List Event) : List Event := beforeNow (afterNow t)

/-- The events after the end timestamp. -/
def afterEnd (t : List Event) : List Event := afterNow (afterNow t)

/-- The resource an event allocates, if any. -/
def allocated : Event → Option Resource
  | Event.cudaMalloc r _ => some r
  | Event.cudaMallocArray r _ _ => some r
  | Event.cudaCreateTextureObject tex _ => some tex
  | _ => none

/-- The resource an event releases, if any. -/
def released : Event → Option Resource
  | Event.cudaFree r => some r
  | Event.cudaFreeArray r => some r
  | Event.cudaDestroyTextureObject r => some r
  | _ => none

/-- The accelerator allocations that are live after an event, given those
live before it. -/
def liveStep (live : List Resource) (e : Event) : List Resource :=
  match allocated e, released e with
  | some r, _ => live ++ [r]
  | none, some r => live.filter (fun x => x != r)
  | none, none => live

/-- The accelerator allocations that are live at the end of a trace. -/
def liveAtEnd (t : List Event) : List Resource := t.foldl liveStep []

/-- The divisor of the timing quotient an event evaluates, if it is one. -/
def timingDivisor : Event → Option ℕ
  | Event.coutTiming _ d _ => some d
  | _ => none

/-- The divisors with which the timing quotient of line 152 is evaluated. -/
def timingDivisors (t : List Event) : List ℕ := t.filterMap timingDivisor

/-- The size of a `cudaMalloc` for the resource `r`. -/
def mallocOf (r : Resource) : Event → Option ℕ
  | Event.cudaMalloc r' b => if r' = r then some b else none
  | _ => none

/-- The sizes of the `cudaMalloc` calls for a given resource. -/
def mallocBytes (r : Resource) (t : List Event) : List ℕ := t.filterMap (mallocOf r)

/-- The size of a device-to-host copy out of the resource `r`. -/
def readbackOf (r : Resource) : Event → Option ℕ
  | Event.cudaMemcpyDeviceToHost r' b => if r' = r then some b else none
  | _ => none

/-- The sizes of the device-to-host copies out of a given resource. -/
def readbackBytes (r : Resource) (t : List Event) : List ℕ := t.filterMap (readbackOf r)

/-- The length of a host array created with `new`. -/
def newArrayOf : Event → Option ℕ
  | Event.newArray w => some w
  | _ => none

/-- The lengths, in 64-bit words, of the host arrays created with `new`. -/
def newArrayWords (t : List Event) : List ℕ := t.filterMap newArrayOf

/-- A degenerate run: a 50x50 image that loads, one detected keypoint at
(25, 25), which lies within the 36-pixel margin. -/
def tinyEnv : Env :=
  { image := { rows := 50, cols := 50, data := some [] },
    detected := [{ pt := { x := 25, y := 25 }, size := 31, angle := 90, response := 0,
                   octave := 0, class_id := -1 }],
    start := 0,
    stop := 1000,
    deviceWord := fun _ => 0 }

/-- An ordinary run: a 640x480 image that loads, one detected keypoint in the
margin and one inside it. -/
def sampleEnv : Env :=
  { image := { rows := 480, cols := 640, data := some [] },
    detected := [{ pt := { x := 10, y := 200 }, size := 31, angle := 45, response := 0,
                   octave := 0, class_id := -1 },
                 { pt := { x := 320, y := 240 }, size := 31, angle := 180, response := 0,
                   octave := 0, class_id := -1 }],
    start := 0,
    stop := 5000000,
    deviceWord := fun i => i + 1 }

/-- A run whose image fails to load. -/
def failedEnv : Env :=
  { image := { rows := 0, cols := 0, data := none },
    detected := [],
    start := 0,
    stop := 0,
    deviceWord := fun _ => 0 }

/-! ## Theorems -/

theorem removeIfKept_eq_filter {α : Type} (pred : α → Bool) (v : List α) :
    removeIfKept pred v = v.filter (fun a => !pred a) := by
  induction v with
  | nil => rfl
  | cons a rest ih =>
    by_cases h : pred a <;> simp [removeIfKept, h, ih]

theorem erase_remove_if {α : Type} (pred : α → Bool) (v : List α) :
    erase (remove_if pred v).1 (remove_if pred v).2 (remove_if pred v).1.length
      = removeIfKept pred v := by
  simp [erase, remove_if]
  omega

theorem borderPred_eq_false_iff (image : cv.Mat) (kp : cv.KeyPoint) :
    borderPred image kp = false ↔ insideMargin image.cols image.rows kp := by
  simp only [borderPred, insideMargin, Bool.or_eq_false_iff, decide_eq_false_iff_not, not_le,
    ge_iff_le]
  tauto

theorem filterKeypoints_eq_filter (image : cv.Mat) (keypoints : List cv.KeyPoint) :
    filterKeypoints image keypoints
      = keypoints.filter (fun kp => decide (insideMargin image.cols image.rows kp)) := by
  unfold filterKeypoints
  rw [erase_remove_if, removeIfKept_eq_filter]
  congr 1
  funext kp
  by_cases h : borderPred image kp = false
  · simp [h, (borderPred_eq_false_iff image kp).1 h]
  · have h2 : ¬ insideMargin image.cols image.rows kp :=
      fun hin => h ((borderPred_eq_false_iff image kp).2 hin)
    simp [Bool.eq_true_of_not_eq_false h, h2]

theorem marshalLoop_eq (keypoints : List cv.KeyPoint) (kps : List KeyPoint) :
    marshalLoop keypoints kps
      = kps ++ keypoints.map
          (fun kp => KeyPoint.mk kp.pt.x kp.pt.y kp.size (toRadians kp.angle)) := by
  induction keypoints generalizing kps with
  | nil => simp [marshalLoop]
  | cons kp rest ih => simp [marshalLoop, ih]

theorem marshal_eq_map (keypoints : List cv.KeyPoint) :
    marshal keypoints
      = keypoints.map (fun kp => KeyPoint.mk kp.pt.x kp.pt.y kp.size (toRadians kp.angle)) := by
  simp [marshal, marshalLoop_eq]

/-- C3. For every list of surviving keypoints the marshalled list has the same
length, and at every index the kernel-native record carries the x, y and size
of the detector keypoint at that index, unchanged; the mapping is total. -/
theorem C3_marshal_elementwise (keypoints : List cv.KeyPoint) :
    (marshal keypoints).length = keypoints.length
      ∧ ∀ i : ℕ,
          ((marshal keypoints)[i]?).map KeyPoint.x = (keypoints[i]?).map (fun kp => kp.pt.x)
        ∧ ((marshal keypoints)[i]?).map KeyPoint.y = (keypoints[i]?).map (fun kp => kp.pt.y)
        ∧ ((marshal keypoints)[i]?).map KeyPoint.scale = (keypoints[i]?).map (fun kp => kp.size)
        ∧ ((marshal keypoints)[i]?).isSome = (keypoints[i]?).isSome := by
  rw [marshal_eq_map]
  refine ⟨by simp, fun i => ?_⟩
  cases h : keypoints[i]? <;> simp [h]

/-! ### The trace of a run -/

theorem kernelLoop_eq_replicate (call : Event) (k : ℕ) :
    kernelLoop call k = List.replicate k call := by
  induction k with
  | zero => rfl
  | succ k ih => simp [kernelLoop, ih, List.replicate_succ]

theorem trace_of_failed (W R : ℕ) (env : Env) (h : env.image.data = none) :
    mainRun W R env = { exit := EXIT_FAILURE, trace := [Event.cerrFailedToOpen] } := by
  simp [mainRun, h]

theorem trace_of_loaded (W R : ℕ) (env : Env) (h : env.image.data ≠ none) :
    mainRun W R env =
      { exit := EXIT_SUCCESS,
        trace :=
          provision env.image (kpsSize env)
            ++ Event.coutWarmingUp :: kernelLoop (kernelCall (kpsSize env)) W
            ++ Event.coutTesting :: Event.now :: kernelLoop (kernelCall (kpsSize env)) R
            ++ Event.now :: report R env (kpsSize env) } := by
  unfold mainRun
  cases hd : env.image.data with
  | none => exact absurd hd h
  | some d => rfl

theorem takeWhile_append_cons {α : Type} (p : α → Bool) (l₁ l₂ : List α) (a : α)
    (h₁ : ∀ x ∈ l₁, p x = true) (ha : p a = false) :
    (l₁ ++ a :: l₂).takeWhile p = l₁ := by
  induction l₁ with
  | nil => simp [List.takeWhile, ha]
  | cons x l ih =>
    have hx : p x = true := h₁ x (by simp)
    simp [List.takeWhile, hx, ih (fun y hy => h₁ y (by simp [hy]))]

theorem dropWhile_append_cons {α : Type} (p : α → Bool) (l₁ l₂ : List α) (a : α)
    (h₁ : ∀ x ∈ l₁, p x = true) (ha : p a = false) :
    (l₁ ++ a :: l₂).dropWhile p = a :: l₂ := by
  induction l₁ with
  | nil => simp [List.dropWhile, ha]
  | cons x l ih =>
    have hx : p x = true := h₁ x (by simp)
    simp [List.dropWhile, hx, ih (fun y hy => h₁ y (by simp [hy]))]

theorem kernelLoop_not_now (n k : ℕ) : ∀ e ∈ kernelLoop (kernelCall n) k, (!isNow e) = true := by
  intro e he
  rw [kernelLoop_eq_replicate] at he
  rw [List.eq_of_mem_replicate he]
  rfl

theorem provision_not_now (image : cv.Mat) (n : ℕ) :
    ∀ e ∈ provision image n, (!isNow e) = true := by
  intro e he
  simp only [provision, List.mem_cons, List.mem_singleton, List.not_mem_nil, or_false] at he
  rcases he with he | he | he | he | he | he | he | he | he | he | he | he | he | he | he <;>
    (subst he; rfl)

theorem kernelCalls_append (l₁ l₂ : List Event) :
    kernelCalls (l₁ ++ l₂) = kernelCalls l₁ + kernelCalls l₂ := by
  simp [kernelCalls]

theorem filter_isKernel_kernelLoop (n k : ℕ) :
    (kernelLoop (kernelCall n) k).filter isKernel = List.replicate k (kernelCall n) := by
  rw [kernelLoop_eq_replicate, List.filter_replicate]
  rfl

theorem kernelCalls_kernelLoop (n k : ℕ) : kernelCalls (kernelLoop (kernelCall n) k) = k := by
  simp [kernelCalls, filter_isKernel_kernelLoop]

theorem filter_isKernel_provision (image : cv.Mat) (n : ℕ) :
    (provision image n).filter isKernel = [] := rfl

theorem filter_isKernel_report (R : ℕ) (env : Env) (n : ℕ) :
    (report R env n).filter isKernel = [] := rfl

/-- The shape of the trace of a run whose image loads: what precedes the start
timestamp, the timed loop, and what follows the end timestamp. -/
theorem trace_split (W R : ℕ) (env : Env) (h : env.image.data ≠ none) :
    (mainRun W R env).trace
      = (provision env.image (kpsSize env)
          ++ Event.coutWarmingUp :: kernelLoop (kernelCall (kpsSize env)) W
          ++ [Event.coutTesting])
        ++ Event.now :: (kernelLoop (kernelCall (kpsSize env)) R
          ++ Event.now :: report R env (kpsSize env)) := by
  rw [trace_of_loaded W R env h]
  simp

theorem pre_not_now (W : ℕ) (env : Env) :
    ∀ e ∈ provision env.image (kpsSize env)
          ++ Event.coutWarmingUp :: kernelLoop (kernelCall (kpsSize env)) W
          ++ [Event.coutTesting], (!isNow e) = true := by
  intro x hx
  simp only [List.mem_append, List.mem_cons, List.mem_singleton, List.not_mem_nil, or_false] at hx
  rcases hx with (hx | hx | hx) | hx
  · exact provision_not_now _ _ x hx
  · subst hx
    rfl
  · exact kernelLoop_not_now _ _ x hx
  · subst hx
    rfl

theorem filter_isKernel_trace (W R : ℕ) (env : Env) (h : env.image.data ≠ none) :
    (mainRun W R env).trace.filter isKernel
      = List.replicate (W + R) (kernelCall (kpsSize env)) := by
  have e : (mainRun W R env).trace
      = provision env.image (kpsSize env) ++ ([Event.coutWarmingUp]
          ++ (kernelLoop (kernelCall (kpsSize env)) W ++ ([Event.coutTesting, Event.now]
          ++ (kernelLoop (kernelCall (kpsSize env)) R ++ ([Event.now]
          ++ report R env (kpsSize env)))))) := by
    rw [trace_of_loaded W R env h]
    simp
  have h1 : [Event.coutWarmingUp].filter isKernel = [] := rfl
  have h2 : [Event.coutTesting, Event.now].filter isKernel = [] := rfl
  have h3 : [Event.now].filter isKernel = [] := rfl
  rw [e]
  simp only [List.filter_append, filter_isKernel_kernelLoop, filter_isKernel_provision,
    filter_isKernel_report, h1, h2, h3, List.nil_append, List.append_nil, List.replicate_add]

theorem beforeNow_trace (W R : ℕ) (env : Env) (h : env.image.data ≠ none) :
    beforeNow (mainRun W R env).trace
      = provision env.image (kpsSize env)
          ++ Event.coutWarmingUp :: kernelLoop (kernelCall (kpsSize env)) W
          ++ [Event.coutTesting] := by
  rw [trace_split W R env h]
  exact takeWhile_append_cons _ _ _ _ (pre_not_now W env) rfl

theorem afterNow_trace (W R : ℕ) (env : Env) (h : env.image.data ≠ none) :
    afterNow (mainRun W R env).trace
      = kernelLoop (kernelCall (kpsSize env)) R ++ Event.now :: report R env (kpsSize env) := by
  rw [trace_split W R env h]
  unfold afterNow
  rw [dropWhile_append_cons (fun e => !isNow e) _ _ Event.now (pre_not_now W env) rfl]
  rfl

theorem timed_trace (W R : ℕ) (env : Env) (h : env.image.data ≠ none) :
    timed (mainRun W R env).trace = kernelLoop (kernelCall (kpsSize env)) R := by
  unfold timed
  rw [afterNow_trace W R env h]
  exact takeWhile_append_cons _ _ _ _ (kernelLoop_not_now _ _) rfl

theorem afterEnd_trace (W R : ℕ) (env : Env) (h : env.image.data ≠ none) :
    afterEnd (mainRun W R env).trace = report R env (kpsSize env) := by
  unfold afterEnd
  rw [afterNow_trace W R env h]
  unfold afterNow
  rw [dropWhile_append_cons (fun e => !isNow e) _ _ Event.now (kernelLoop_not_now _ _) rfl]
  rfl

theorem filter_isNow_trace (W R : ℕ) (env : Env) (h : env.image.data ≠ none) :
    (mainRun W R env).trace.filter isNow = [Event.now, Event.now] := by
  have e : (mainRun W R env).trace
      = provision env.image (kpsSize env) ++ ([Event.coutWarmingUp]
          ++ (kernelLoop (kernelCall (kpsSize env)) W ++ ([Event.coutTesting, Event.now]
          ++ (kernelLoop (kernelCall (kpsSize env)) R ++ ([Event.now]
          ++ report R env (kpsSize env)))))) := by
    rw [trace_of_loaded W R env h]
    simp
  have h0 : (provision env.image (kpsSize env)).filter isNow = [] := rfl
  have h1 : [Event.coutWarmingUp].filter isNow = [] := rfl
  have h2 : [Event.coutTesting, Event.now].filter isNow = [Event.now] := rfl
  have h3 : [Event.now].filter isNow = [Event.now] := rfl
  have h4 : (report R env (kpsSize env)).filter isNow = [] := rfl
  have h5 : ∀ k, (kernelLoop (kernelCall (kpsSize env)) k).filter isNow = [] := by
    intro k
    rw [kernelLoop_eq_replicate, List.filter_replicate]
    rfl
  rw [e]
  simp only [List.filter_append, h0, h1, h2, h3, h4, h5, List.nil_append, List.append_nil]
  rfl

theorem kpsSize_eq_filter_length (env : Env) :
    kpsSize env = (filterKeypoints env.image env.detected).length := by
  simp [kpsSize, marshal_eq_map]

theorem filterKeypoints_tinyEnv : filterKeypoints tinyEnv.image tinyEnv.detected = [] := by
  rw [filterKeypoints_eq_filter]
  norm_num [List.filter, insideMargin, tinyEnv]

theorem kpsSize_tinyEnv : kpsSize tinyEnv = 0 := by
  rw [kpsSize_eq_filter_length, filterKeypoints_tinyEnv]
  rfl

theorem kpsSize_sampleEnv : kpsSize sampleEnv = 1 := by
  rw [kpsSize_eq_filter_length, filterKeypoints_eq_filter]
  norm_num [List.filter, insideMargin, sampleEnv]

theorem tinyEnv_loaded : tinyEnv.image.data ≠ none := by
  simp [tinyEnv]

theorem sampleEnv_loaded : sampleEnv.image.data ≠ none := by
  simp [sampleEnv]

theorem static_cast_int_zero : static_cast_int 0 = 0 := by
  norm_num [static_cast_int]

/-! ### Claims about the benchmark loops -/

/-- C2. For every warm-up count `W` and measured count `R`, a run whose image
loads calls the descriptor kernel exactly `W` times before the start timestamp
is taken, exactly `R` times between the start and the end timestamp and never
after the end timestamp, `W + R` times in all; it takes exactly two
timestamps; and every call carries the same image resource, triplet resource,
keypoint array, keypoint count and output buffer. -/
theorem C2_benchmark_counts (W R : ℕ) (env : Env) (h : env.image.data ≠ none) :
    kernelCalls (beforeNow (mainRun W R env).trace) = W
      ∧ kernelCalls (timed (mainRun W R env).trace) = R
      ∧ kernelCalls (afterEnd (mainRun W R env).trace) = 0
      ∧ kernelCalls (mainRun W R env).trace = W + R
      ∧ (mainRun W R env).trace.filter isNow = [Event.now, Event.now]
      ∧ ∀ e ∈ (mainRun W R env).trace, isKernel e = true →
          e = Event.CLATCH Resource.d_img_tex Resource.d_trip_tex Resource.d_kps
                (static_cast_int (kpsSize env)) Resource.d_desc := by
  refine ⟨?_, ?_, ?_, ?_, filter_isNow_trace W R env h, ?_⟩
  · rw [beforeNow_trace W R env h]
    have h1 : kernelCalls [Event.coutTesting] = 0 := rfl
    have h2 : kernelCalls (provision env.image (kpsSize env)) = 0 := rfl
    have h3 : kernelCalls (Event.coutWarmingUp :: kernelLoop (kernelCall (kpsSize env)) W)
        = kernelCalls (kernelLoop (kernelCall (kpsSize env)) W) := rfl
    rw [kernelCalls_append, kernelCalls_append, h1, h2, h3, kernelCalls_kernelLoop]
    omega
  · rw [timed_trace W R env h, kernelCalls_kernelLoop]
  · rw [afterEnd_trace W R env h]
    rfl
  · unfold kernelCalls
    rw [filter_isKernel_trace W R env h, List.length_replicate]
  · intro e he hk
    have hmem : e ∈ (mainRun W R env).trace.filter isKernel := List.mem_filter.2 ⟨he, hk⟩
    rw [filter_isKernel_trace W R env h] at hmem
    exact List.eq_of_mem_replicate hmem

/-- The constants of `main.cpp`, `W = 100` and `R = 500`: 600 calls, 500 of
them timed. -/
theorem C2_benchmark_counts_witness :
    sampleEnv.image.data ≠ none
      ∧ kernelCalls (timed (main sampleEnv).trace) = 500
      ∧ kernelCalls (main sampleEnv).trace = 600 :=
  ⟨sampleEnv_loaded, (C2_benchmark_counts 100 500 sampleEnv sampleEnv_loaded).2.1,
    (C2_benchmark_counts 100 500 sampleEnv sampleEnv_loaded).2.2.2.1⟩

/-- C7 as stated fails: in the degenerate run every detected keypoint is
removed by the filter, and the run still issues 600 kernel calls, each with a
keypoint count of 0. -/
theorem C7_zero_count_calls_counterexample :
    filterKeypoints tinyEnv.image tinyEnv.detected = []
      ∧ (main tinyEnv).trace.filter isKernel
          = List.replicate 600
              (Event.CLATCH Resource.d_img_tex Resource.d_trip_tex Resource.d_kps 0
                Resource.d_desc)
      ∧ kernelCalls (main tinyEnv).trace ≠ 0 := by
  have hf : (main tinyEnv).trace.filter isKernel
      = List.replicate 600
          (Event.CLATCH Resource.d_img_tex Resource.d_trip_tex Resource.d_kps 0
            Resource.d_desc) := by
    unfold main warmups runs
    rw [filter_isKernel_trace 100 500 tinyEnv tinyEnv_loaded, kpsSize_tinyEnv]
    unfold kernelCall
    rw [static_cast_int_zero]
  refine ⟨filterKeypoints_tinyEnv, hf, ?_⟩
  unfold kernelCalls
  rw [hf, List.length_replicate]
  decide

/-- C7, amended. When the filter leaves no keypoint, a run whose image loads
issues no guard: it makes all `W + R` kernel calls, each with the keypoint
count 0, so it makes none only when `W + R = 0`. -/
theorem C7_zero_count_calls (W R : ℕ) (env : Env) (h : env.image.data ≠ none)
    (h0 : filterKeypoints env.image env.detected = []) :
    (mainRun W R env).trace.filter isKernel
        = List.replicate (W + R)
            (Event.CLATCH Resource.d_img_tex Resource.d_trip_tex Resource.d_kps 0
              Resource.d_desc)
      ∧ kernelCalls (mainRun W R env).trace = W + R
      ∧ (kernelCalls (mainRun W R env).trace = 0 ↔ W + R = 0) := by
  have hk : kpsSize env = 0 := by
    rw [kpsSize_eq_filter_length, h0]
    rfl
  have hf : (mainRun W R env).trace.filter isKernel
      = List.replicate (W + R)
          (Event.CLATCH Resource.d_img_tex Resource.d_trip_tex Resource.d_kps 0
            Resource.d_desc) := by
    rw [filter_isKernel_trace W R env h, hk]
    unfold kernelCall
    rw [static_cast_int_zero]
  have hc : kernelCalls (mainRun W R env).trace = W + R := by
    unfold kernelCalls
    rw [hf, List.length_replicate]
  exact ⟨hf, hc, by rw [hc]⟩

/-- The degenerate run with the constants of `main.cpp`. -/
theorem C7_zero_count_calls_witness :
    tinyEnv.image.data ≠ none
      ∧ filterKeypoints tinyEnv.image tinyEnv.detected = []
      ∧ kernelCalls (mainRun 100 500 tinyEnv).trace = 100 + 500 :=
  ⟨tinyEnv_loaded, filterKeypoints_tinyEnv,
    (C7_zero_count_calls 100 500 tinyEnv tinyEnv_loaded filterKeypoints_tinyEnv).2.1⟩

/-! ### Claims about the timing report, the buffers and the exit paths -/

theorem filterMap_kernelLoop {β : Type} (f : Event → Option β) (n k : ℕ)
    (hf : f (kernelCall n) = none) : (kernelLoop (kernelCall n) k).filterMap f = [] := by
  induction k with
  | zero => rfl
  | succ k ih => simp [kernelLoop, List.filterMap_cons, hf, ih]

/-- An observation that ignores kernel calls sees only the provisioning, the
two progress messages, the two clock readings and the report. -/
theorem filterMap_trace {β : Type} (f : Event → Option β) (W R : ℕ) (env : Env)
    (h : env.image.data ≠ none) (hf : f (kernelCall (kpsSize env)) = none) :
    (mainRun W R env).trace.filterMap f
      = (provision env.image (kpsSize env)).filterMap f
        ++ [Event.coutWarmingUp, Event.coutTesting, Event.now, Event.now].filterMap f
        ++ (report R env (kpsSize env)).filterMap f := by
  have e : (mainRun W R env).trace
      = provision env.image (kpsSize env) ++ ([Event.coutWarmingUp]
          ++ (kernelLoop (kernelCall (kpsSize env)) W ++ ([Event.coutTesting, Event.now]
          ++ (kernelLoop (kernelCall (kpsSize env)) R ++ ([Event.now]
          ++ report R env (kpsSize env)))))) := by
    rw [trace_of_loaded W R env h]
    simp
  have e2 : [Event.coutWarmingUp, Event.coutTesting, Event.now, Event.now]
      = [Event.coutWarmingUp] ++ ([Event.coutTesting, Event.now] ++ [Event.now]) := rfl
  rw [e, e2]
  simp only [List.filterMap_append, filterMap_kernelLoop f _ _ hf, List.nil_append,
    List.append_assoc]

theorem timingDivisors_trace (W R : ℕ) (env : Env) (h : env.image.data ≠ none) :
    timingDivisors (mainRun W R env).trace = [R * kpsSize env] := by
  unfold timingDivisors
  rw [filterMap_trace timingDivisor W R env h rfl]
  rfl

/-- C8 as stated fails: in the degenerate run no keypoint survives, and the
run still evaluates the timing quotient, with the divisor `500 * 0 = 0`. -/
theorem C8_timing_divisor_counterexample :
    filterKeypoints tinyEnv.image tinyEnv.detected = []
      ∧ timingDivisors (main tinyEnv).trace = [0]
      ∧ 0 ∈ timingDivisors (main tinyEnv).trace := by
  have ht : timingDivisors (main tinyEnv).trace = [0] := by
    unfold main
    rw [timingDivisors_trace warmups runs tinyEnv tinyEnv_loaded, kpsSize_tinyEnv, Nat.mul_zero]
  exact ⟨filterKeypoints_tinyEnv, ht, by rw [ht]; exact List.mem_singleton.2 rfl⟩

/-- C8, amended. A run whose image loads evaluates the timing quotient exactly
once, without a guard, with the divisor `R * keypointCount`; that divisor is
zero exactly when `R = 0` or no keypoint survives, so with no surviving
keypoint the quotient is evaluated with divisor zero and no sentinel is
reported. -/
theorem C8_timing_divisor (W R : ℕ) (env : Env) (h : env.image.data ≠ none) :
    timingDivisors (mainRun W R env).trace
        = [R * (filterKeypoints env.image env.detected).length]
      ∧ (0 ∈ timingDivisors (mainRun W R env).trace
          ↔ R = 0 ∨ filterKeypoints env.image env.detected = [])
      ∧ (filterKeypoints env.image env.detected = [] →
          timingDivisors (mainRun W R env).trace = [0]) := by
  have ht := timingDivisors_trace W R env h
  rw [kpsSize_eq_filter_length] at ht
  refine ⟨ht, ?_, ?_⟩
  · rw [ht, List.mem_singleton, eq_comm, Nat.mul_eq_zero, List.length_eq_zero]
  · intro h0
    rw [ht, h0]
    rfl

/-- An ordinary run with the constants of `main.cpp`: one keypoint survives
and the divisor is `500 * 1`. -/
theorem C8_timing_divisor_witness :
    sampleEnv.image.data ≠ none
      ∧ timingDivisors (mainRun 100 500 sampleEnv).trace
          = [500 * (filterKeypoints sampleEnv.image sampleEnv.detected).length] :=
  ⟨sampleEnv_loaded, (C8_timing_divisor 100 500 sampleEnv sampleEnv_loaded).1⟩

/-- C9. If the image fails to load, the run ends with the non-zero status
`EXIT_FAILURE` after the error message alone: it issues no call into the
accelerator runtime (no allocation, upload, texture binding or kernel call)
and no detection. If the image loads, the run does not take the failure exit:
it ends with status 0 and its last action is the checksum output that ends
`main`. -/
theorem C9_image_load_exit (W R : ℕ) (env : Env) :
    (env.image.data = none →
        (mainRun W R env).exit = EXIT_FAILURE
          ∧ (mainRun W R env).exit ≠ 0
          ∧ (mainRun W R env).trace = [Event.cerrFailedToOpen]
          ∧ ∀ e ∈ (mainRun W R env).trace, isAccelerator e = false ∧ isDetect e = false)
      ∧ (env.image.data ≠ none →
        (mainRun W R env).exit = 0
          ∧ (mainRun W R env).exit ≠ EXIT_FAILURE
          ∧ Event.cerrFailedToOpen ∉ (mainRun W R env).trace
          ∧ ∃ total, (mainRun W R env).trace.getLast? = some (Event.coutChecksum total)) := by
  constructor
  · intro h
    rw [trace_of_failed W R env h]
    refine ⟨rfl, by decide, rfl, ?_⟩
    intro e he
    rw [List.mem_singleton.1 he]
    exact ⟨rfl, rfl⟩
  · intro h
    refine ⟨?_, ?_, ?_, ?_⟩
    · rw [trace_of_loaded W R env h]
      rfl
    · rw [trace_of_loaded W R env h]
      exact (by decide : EXIT_SUCCESS ≠ EXIT_FAILURE)
    · intro hmem
      have hnone : ∀ e, e = Event.cerrFailedToOpen → isKernel e = false ∧ isNow e = false := by
        intro e he
        subst he
        exact ⟨rfl, rfl⟩
      rw [trace_split W R env h] at hmem
      simp only [List.mem_append, List.mem_cons, List.mem_singleton, List.not_mem_nil,
        or_false] at hmem
      rcases hmem with ((hm | hm | hm) | hm) | hm | hm | hm | hm
      · simp [provision] at hm
      · exact Event.noConfusion hm
      · rw [kernelLoop_eq_replicate] at hm
        exact Event.noConfusion (List.eq_of_mem_replicate hm)
      · exact Event.noConfusion hm
      · exact Event.noConfusion hm
      · rw [kernelLoop_eq_replicate] at hm
        exact Event.noConfusion (List.eq_of_mem_replicate hm)
      · exact Event.noConfusion hm
      · simp [report] at hm
    · refine ⟨checksum ((List.range (hostWords (kpsSize env))).map env.deviceWord)
        (hostWords (kpsSize env)), ?_⟩
      rw [trace_split W R env h, List.getLast?_append_of_ne_nil _ (List.cons_ne_nil _ _),
        ← List.cons_append,
        List.getLast?_append_of_ne_nil _ (List.cons_ne_nil _ _)]
      rfl

/-- Both exit paths of C9 on concrete runs: the run whose image fails to load
and an ordinary run. -/
theorem C9_image_load_exit_witness :
    (failedEnv.image.data = none ∧ (main failedEnv).exit = EXIT_FAILURE)
      ∧ (sampleEnv.image.data ≠ none ∧ (main sampleEnv).exit = 0) :=
  ⟨⟨rfl, ((C9_image_load_exit warmups runs failedEnv).1 rfl).1⟩,
    ⟨sampleEnv_loaded, ((C9_image_load_exit warmups runs sampleEnv).2 sampleEnv_loaded).1⟩⟩

/-! ### Resources -/

theorem foldl_liveStep_kernelLoop (n k : ℕ) (live : List Resource) :
    (kernelLoop (kernelCall n) k).foldl liveStep live = live := by
  induction k with
  | zero => rfl
  | succ k ih =>
    rw [kernelLoop, List.foldl_cons]
    exact ih

theorem liveAtEnd_trace (W R : ℕ) (env : Env) (h : env.image.data ≠ none) :
    liveAtEnd (mainRun W R env).trace
      = [Resource.d_desc, Resource.d_kps, Resource.d_triplets, Resource.d_trip_arr,
          Resource.d_trip_tex, Resource.d_img_arr, Resource.d_img_tex] := by
  have e : (mainRun W R env).trace
      = provision env.image (kpsSize env) ++ ([Event.coutWarmingUp]
          ++ (kernelLoop (kernelCall (kpsSize env)) W ++ ([Event.coutTesting, Event.now]
          ++ (kernelLoop (kernelCall (kpsSize env)) R ++ ([Event.now]
          ++ report R env (kpsSize env)))))) := by
    rw [trace_of_loaded W R env h]
    simp
  unfold liveAtEnd
  rw [e]
  simp only [List.foldl_append, foldl_liveStep_kernelLoop]
  rfl

theorem released_trace (W R : ℕ) (env : Env) :
    (mainRun W R env).trace.filterMap released = [] := by
  by_cases h : env.image.data = none
  · rw [trace_of_failed W R env h]
    rfl
  · rw [filterMap_trace released W R env h rfl]
    rfl

/-- C10 as stated fails: an ordinary run ends with all seven accelerator
allocations still live. -/
theorem C10_resources_released_counterexample :
    liveAtEnd (main sampleEnv).trace
        = [Resource.d_desc, Resource.d_kps, Resource.d_triplets, Resource.d_trip_arr,
            Resource.d_trip_tex, Resource.d_img_arr, Resource.d_img_tex]
      ∧ liveAtEnd (main sampleEnv).trace ≠ [] := by
  have hl := liveAtEnd_trace warmups runs sampleEnv sampleEnv_loaded
  refine ⟨hl, ?_⟩
  unfold main
  rw [hl]
  exact List.cons_ne_nil _ _

/-- C10, amended. `main` issues no release call on any path. On the exit path
taken when the image fails to load nothing has been allocated, so no
accelerator allocation is live when the run ends. On the path taken when the
image loads, the descriptor buffer, the keypoint array, the triplet buffer and
array, the image array and the two texture objects are all still live when
`main` ends. -/
theorem C10_resources_released (W R : ℕ) (env : Env) :
    (mainRun W R env).trace.filterMap released = []
      ∧ (env.image.data = none →
          (mainRun W R env).trace.filterMap allocated = []
            ∧ liveAtEnd (mainRun W R env).trace = [])
      ∧ (env.image.data ≠ none →
          liveAtEnd (mainRun W R env).trace
            = [Resource.d_desc, Resource.d_kps, Resource.d_triplets, Resource.d_trip_arr,
                Resource.d_trip_tex, Resource.d_img_arr, Resource.d_img_tex]) := by
  refine ⟨released_trace W R env, ?_, liveAtEnd_trace W R env⟩
  intro h
  rw [trace_of_failed W R env h]
  exact ⟨rfl, rfl⟩

/-- Both exit paths of C10 on concrete runs. -/
theorem C10_resources_released_witness :
    (failedEnv.image.data = none ∧ liveAtEnd (main failedEnv).trace = [])
      ∧ (sampleEnv.image.data ≠ none ∧ (main sampleEnv).trace.filterMap released = []) :=
  ⟨⟨rfl, ((C10_resources_released warmups runs failedEnv).2.1 rfl).2⟩,
    ⟨sampleEnv_loaded, (C10_resources_released warmups runs sampleEnv).1⟩⟩

/-! ### Buffer sizes -/

/-- C5. For every surviving keypoint count `n` (one that fits the 64-bit size
type, `64 * n < 2 ^ 64`), a run whose image loads allocates the accelerator
output buffer once, with exactly `64 * n` bytes, copies exactly the same
`64 * n` bytes back to the host, and receives them in a host array of exactly
`8 * n` 64-bit words, which is `64 * n` bytes: the copy fills the host array
exactly. -/
theorem C5_buffer_sizes (W R : ℕ) (env : Env) (n : ℕ) (h : env.image.data ≠ none)
    (hn : (filterKeypoints env.image env.detected).length = n) (hfit : 64 * n < 2 ^ 64) :
    mallocBytes Resource.d_desc (mainRun W R env).trace = [64 * n]
      ∧ readbackBytes Resource.d_desc (mainRun W R env).trace = [64 * n]
      ∧ newArrayWords (mainRun W R env).trace = [8 * n]
      ∧ 8 * (8 * n) = 64 * n := by
  have hk : kpsSize env = n := by rw [kpsSize_eq_filter_length, hn]
  have hd : descBytes n = 64 * n := Nat.mod_eq_of_lt hfit
  have hw : hostWords n = 8 * n := Nat.mod_eq_of_lt (by omega)
  refine ⟨?_, ?_, ?_, by ring⟩
  · unfold mallocBytes
    rw [filterMap_trace (mallocOf Resource.d_desc) W R env h rfl, hk, ← hd]
    rfl
  · unfold readbackBytes
    rw [filterMap_trace (readbackOf Resource.d_desc) W R env h rfl, hk, ← hd]
    rfl
  · unfold newArrayWords
    rw [filterMap_trace newArrayOf W R env h rfl, hk, ← hw]
    rfl

/-- An ordinary run: one surviving keypoint, 64 bytes, 8 words. -/
theorem C5_buffer_sizes_witness :
    sampleEnv.image.data ≠ none
      ∧ (filterKeypoints sampleEnv.image sampleEnv.detected).length = 1
      ∧ 64 * 1 < 2 ^ 64
      ∧ mallocBytes Resource.d_desc (main sampleEnv).trace = [64 * 1]
      ∧ readbackBytes Resource.d_desc (main sampleEnv).trace = [64 * 1]
      ∧ newArrayWords (main sampleEnv).trace = [8 * 1] :=
  have hlen : (filterKeypoints sampleEnv.image sampleEnv.detected).length = 1 := by
    rw [← kpsSize_eq_filter_length]
    exact kpsSize_sampleEnv
  have hc := C5_buffer_sizes warmups runs sampleEnv 1 sampleEnv_loaded hlen (by norm_num)
  ⟨sampleEnv_loaded, hlen, by norm_num, hc.1, hc.2.1, hc.2.2.1⟩

/-! ### Checksum -/

theorem toU64_lt (z : ℤ) : toU64 z < 2 ^ 64 := by
  unfold toU64
  omega

theorem toU64_toI64 (n : ℕ) : toU64 (toI64 n) = n % 2 ^ 64 := by
  unfold toU64 toI64
  split_ifs <;> omega

theorem toI64_mod (n : ℕ) : toI64 (n % 2 ^ 64) = toI64 n := by
  unfold toI64
  rw [Nat.mod_mod]

theorem toU64_accumulate (total : ℤ) (word : ℕ) :
    toU64 (accumulate total word) = (toU64 total + word) % 2 ^ 64 := by
  unfold accumulate
  rw [toU64_toI64]
  omega

theorem toU64_foldl_accumulate (l : List ℕ) (total : ℤ) :
    toU64 (l.foldl accumulate total) = (toU64 total + l.sum) % 2 ^ 64 := by
  induction l generalizing total with
  | nil =>
    have := toU64_lt total
    simp only [List.foldl_nil, List.sum_nil, Nat.add_zero]
    omega
  | cons w l ih =>
    rw [List.foldl_cons, ih, toU64_accumulate, List.sum_cons]
    omega

/-- A `long long` that the loop has stored is the one its bit pattern
denotes. -/
theorem toI64_toU64_foldl (l : List ℕ) :
    toI64 (toU64 (l.foldl accumulate 0)) = l.foldl accumulate 0 := by
  have key : ∀ (l : List ℕ) (total : ℤ), toI64 (toU64 total) = total →
      toI64 (toU64 (l.foldl accumulate total)) = l.foldl accumulate total := by
    intro l
    induction l with
    | nil => intro total h; exact h
    | cons w l ih =>
      intro total _
      rw [List.foldl_cons]
      apply ih
      unfold accumulate
      rw [toU64_toI64, toI64_mod]
  exact key l 0 (by decide)

theorem range_map_getD (l : List ℕ) :
    (List.range l.length).map (fun i => l.getD i 0) = l := by
  apply List.ext_getElem
  · simp
  · intro i h₁ h₂
    simp [List.getD_eq_getElem?_getD, List.getElem?_eq_getElem h₂]

theorem checksum_eq_foldl (buf : List ℕ) : checksum buf buf.length = buf.foldl accumulate 0 := by
  unfold checksum
  have := List.foldl_map (fun i => buf.getD i 0) accumulate (List.range buf.length) (0 : ℤ)
  rw [range_map_getD] at this
  exact this.symm

theorem checksum_eq_sum (buf : List ℕ) :
    checksum buf buf.length = toI64 (buf.sum % 2 ^ 64) := by
  rw [checksum_eq_foldl, ← toI64_toU64_foldl, toU64_foldl_accumulate]
  have : toU64 0 = 0 := by decide
  rw [this, Nat.zero_add]

/-- C6. For every surviving keypoint count `n` (one that fits the 64-bit size
type) and every readback buffer of `8 * n` 64-bit words, the checksum of lines
159-160 is the sum of all the words of the buffer, each counted once, modulo
`2 ^ 64` (held in a `long long`); any permutation of the words gives the same
checksum; and for `n = 0` the checksum is 0. -/
theorem C6_checksum_sum (n : ℕ) (buf : List ℕ) (hfit : 64 * n < 2 ^ 64)
    (hlen : buf.length = 8 * n) :
    toU64 (checksum buf (hostWords n)) = buf.sum % 2 ^ 64
      ∧ checksum buf (hostWords n) = toI64 (buf.sum % 2 ^ 64)
      ∧ (∀ buf' : List ℕ, buf.Perm buf' → checksum buf' (hostWords n) = checksum buf (hostWords n))
      ∧ (n = 0 → checksum buf (hostWords n) = 0) := by
  have hw : hostWords n = buf.length := by
    rw [hlen]
    exact Nat.mod_eq_of_lt (by omega)
  have hs := checksum_eq_sum buf
  refine ⟨?_, ?_, ?_, ?_⟩
  · rw [hw, hs, toU64_toI64, Nat.mod_mod]
  · rw [hw, hs]
  · intro buf' hp
    rw [hw, hs, hp.length_eq, checksum_eq_sum, hp.sum_eq]
  · intro h0
    subst h0
    have hnil : buf = [] := List.length_eq_zero.1 (by simpa using hlen)
    subst hnil
    rfl

/-- One keypoint, eight words: the checksum is their sum, in any order. -/
theorem C6_checksum_sum_witness :
    64 * 1 < 2 ^ 64
      ∧ [1, 2, 3, 4, 5, 6, 7, 2 ^ 64 - 1].length = 8 * 1
      ∧ checksum [1, 2, 3, 4, 5, 6, 7, 2 ^ 64 - 1] (hostWords 1)
          = toI64 ([1, 2, 3, 4, 5, 6, 7, 2 ^ 64 - 1].sum % 2 ^ 64) :=
  ⟨by norm_num, rfl, (C6_checksum_sum 1 [1, 2, 3, 4, 5, 6, 7, 2 ^ 64 - 1] (by norm_num) rfl).2.1⟩

/-! ### Angle conversion -/

end Clatch
